import Mathlib

set_option linter.unusedVariables false

/- Shallow embedding of the smser gateway, from src/metrics.rs (rate limiter)
   and src/modem.rs (device protocol client).

   Time is modelled in seconds as Nat; Rust Instant.duration_since on a
   monotonic clock is truncated subtraction, which matches Nat subtraction.
   The u32 usage counters are modelled as Nat: every increment in the source
   is guarded by a strict comparison against a u32 ceiling, so the counters
   never reach the wrap-around point and Nat addition is exact. -/

/-- Per-client rate limit configuration, src/metrics.rs ClientLimit. -/
structure ClientLimit where
  name : String
  hourly_limit : Nat
  daily_limit : Nat
deriving DecidableEq

/-- src/metrics.rs ClientRateLimitState. -/
structure ClientRateLimitState where
  hourly_count : Nat
  daily_count : Nat
  last_reset_hour : Nat
  last_reset_day : Nat
deriving DecidableEq

/-- src/metrics.rs RateLimitState.  The HashMap of per-client states is
    modelled as an association list. -/
structure RateLimitState where
  hourly_count : Nat
  daily_count : Nat
  last_reset_hour : Nat
  last_reset_day : Nat
  client_state : List (String × ClientRateLimitState)
deriving DecidableEq

/-- The immutable configuration part of src/metrics.rs RateLimiter
    (the mutex-guarded state is passed explicitly). -/
structure RateLimiter where
  hourly_limit : Nat
  daily_limit : Nat
  client_limits : List (String × (Nat × Nat))
deriving DecidableEq

/-- Association list lookup (models HashMap::get). -/
def alookup {α : Type} : List (String × α) → String → Option α
  | [], _ => none
  | (k, v) :: rest, key => if k = key then some v else alookup rest key

/-- Association list insert-or-replace (models HashMap entry update). -/
def ainsert {α : Type} : List (String × α) → String → α → List (String × α)
  | [], key, v => [(key, v)]
  | (k, w) :: rest, key, v =>
    if k = key then (key, v) :: rest else (k, w) :: ainsert rest key v

/-- src/metrics.rs ClientRateLimitState::new (resets initialised to now). -/
def ClientRateLimitState.new (now : Nat) : ClientRateLimitState :=
  { hourly_count := 0, daily_count := 0, last_reset_hour := now, last_reset_day := now }

/-- src/metrics.rs ClientRateLimitState::update: lazy window rolls. -/
def ClientRateLimitState.update (s : ClientRateLimitState) (now : Nat) : ClientRateLimitState :=
  let s1 := if now - s.last_reset_hour ≥ 3600 then
    { s with hourly_count := 0, last_reset_hour := now } else s
  if now - s1.last_reset_day ≥ 86400 then
    { s1 with daily_count := 0, last_reset_day := now } else s1

/-- src/metrics.rs RateLimitState::update: lazy window rolls of the global
    counters; the per-client map is untouched. -/
def RateLimitState.update (s : RateLimitState) (now : Nat) : RateLimitState :=
  let s1 := if now - s.last_reset_hour ≥ 3600 then
    { s with hourly_count := 0, last_reset_hour := now } else s
  if now - s1.last_reset_day ≥ 86400 then
    { s1 with daily_count := 0, last_reset_day := now } else s1

/-- The four distinct error cases produced by check_and_increment in
    src/metrics.rs (each corresponds to one format string in the source). -/
inductive QuotaError where
  | globalHourly (limit : Nat)
  | globalDaily (limit : Nat)
  | clientHourly (name : String) (limit : Nat)
  | clientDaily (name : String) (limit : Nat)
deriving DecidableEq

/-- The exact Err message text of each case in src/metrics.rs (the source
    quotes the client name; the quote characters are omitted here). -/
def QuotaError.message : QuotaError → String
  | .globalHourly l => "Hourly limit of " ++ toString l ++ " reached"
  | .globalDaily l => "Daily limit of " ++ toString l ++ " reached"
  | .clientHourly n l => "Client " ++ n ++ " hourly limit of " ++ toString l ++ " reached"
  | .clientDaily n l => "Client " ++ n ++ " daily limit of " ++ toString l ++ " reached"

/-- The final global-increment step of check_and_increment
    (src/metrics.rs lines 190-198). -/
def incrGlobal (s : RateLimitState) : RateLimitState × Except QuotaError Unit :=
  ({ s with hourly_count := s.hourly_count + 1, daily_count := s.daily_count + 1 },
   Except.ok ())

/-- The per-client block of check_and_increment (src/metrics.rs lines
    154-187): when the caller is named and configured, get or create its
    state entry, roll its windows, and test its own ceilings; the returned
    state carries the (possibly created and rolled) entry, and the returned
    option is the per-client rejection if any.  An unnamed or unconfigured
    caller leaves the state untouched. -/
def RateLimiter.client_check (rl : RateLimiter) (now : Nat) (client : Option String)
    (s : RateLimitState) : RateLimitState × Option QuotaError :=
  match client with
  | none => (s, none)
  | some client_name =>
    match alookup rl.client_limits client_name with
    | none => (s, none)
    | some (client_hourly, client_daily) =>
      let cs0 := match alookup s.client_state client_name with
        | some c => c
        | none => ClientRateLimitState.new now
      let cs := cs0.update now
      if cs.hourly_count ≥ client_hourly then
        ({ s with client_state := ainsert s.client_state client_name cs },
         some (.clientHourly client_name client_hourly))
      else if cs.daily_count ≥ client_daily then
        ({ s with client_state := ainsert s.client_state client_name cs },
         some (.clientDaily client_name client_daily))
      else
        ({ s with client_state := (ainsert s.client_state client_name
            { cs with hourly_count := cs.hourly_count + 1,
                      daily_count := cs.daily_count + 1 }) },
         none)

/-- src/metrics.rs RateLimiter::check_and_increment.  The mutex makes the
    whole body one atomic step on the state; here the state is passed and
    returned explicitly, and Instant::now() is the explicit argument now.
    Order as in the source: lazy global rolls, global hourly test, global
    daily test, per-client block, global increments. -/
def RateLimiter.check_and_increment (rl : RateLimiter) (now : Nat)
    (client : Option String) (s0 : RateLimitState) :
    RateLimitState × Except QuotaError Unit :=
  let s := s0.update now
  if s.hourly_count ≥ rl.hourly_limit then
    (s, Except.error (.globalHourly rl.hourly_limit))
  else if s.daily_count ≥ rl.daily_limit then
    (s, Except.error (.globalDaily rl.daily_limit))
  else
    let r := rl.client_check now client s
    match r.2 with
    | some e => (r.1, Except.error e)
    | none => incrGlobal r.1

/-- src/metrics.rs RateLimiter::new: the configuration together with the
    fresh state it installs (counters zero, resets at construction time). -/
def RateLimiter.new (hourly_limit daily_limit : Nat) (client_limits : List ClientLimit)
    (now : Nat) : RateLimiter × RateLimitState :=
  ({ hourly_limit := hourly_limit, daily_limit := daily_limit,
     client_limits := client_limits.map fun cl => (cl.name, (cl.hourly_limit, cl.daily_limit)) },
   { hourly_count := 0, daily_count := 0, last_reset_hour := now, last_reset_day := now,
     client_state := [] })

/-- Runs a sequence of check_and_increment calls (the serialisation of
    concurrent callers produced by the mutex), collecting each result. -/
def RateLimiter.run (rl : RateLimiter) (calls : List (Nat × Option String))
    (s : RateLimitState) : RateLimitState × List (Except QuotaError Unit) :=
  match calls with
  | [] => (s, [])
  | (now, c) :: rest =>
    let r := rl.check_and_increment now c s
    let t := rl.run rest r.1
    (t.1, r.2 :: t.2)

def isOk : Except QuotaError Unit → Bool
  | .ok _ => true
  | .error _ => false

/-- Number of admitted calls in a result list. -/
def countOk (rs : List (Except QuotaError Unit)) : Nat := (rs.filter isOk).length

/-- Number of rejected calls in a result list. -/
def countErr (rs : List (Except QuotaError Unit)) : Nat :=
  (rs.filter fun r => !(isOk r)).length

/- ===== Device protocol client, src/modem.rs and src/types.rs =====

   The HTTP transport and the quick_xml lexer are external collaborators:
   the transport outcome is passed in as an Option String (none models an
   unreachable device, i.e. a reqwest transport error; some body models the
   raw response text), and the text-to-XML-tree reader is a parameter
   readXml.  The serde-derived field mapping of each struct is code of this
   repository (the struct declarations and serde attributes in src), so it
   is embedded concretely on an XML tree model below. -/

namespace Modem

/-- A minimal XML document tree (element name, children, character data). -/
inductive Xml where
  | elem (name : String) (children : List Xml)
  | text (s : String)

/-- src/modem.rs enum Error.  XmlSerializeError cannot arise for the fixed
    request shapes (their serialisation is total), so no embedded operation
    produces it; it is kept for completeness of the taxonomy. -/
inductive Error where
  | reqwestError (msg : String)
  | xmlParseError (msg : String)
  | xmlSerializeError (msg : String)
  | modemError (code : Int) (message : String)
  | sessionError (msg : String)
  | other (msg : String)
deriving DecidableEq

/-- src/modem.rs ModemErrorResponse: the device error envelope. -/
structure ModemErrorResponse where
  code : Int
  message : String
deriving DecidableEq

/-- src/modem.rs SessionInfo: response of /api/webserver/SesTokInfo. -/
structure SessionInfo where
  session_id : String
  token : String
deriving DecidableEq

/-- src/types.rs enum SmsStat. -/
inductive SmsStat where
  | unread | read | unknown
deriving DecidableEq

/-- src/types.rs enum Priority. -/
inductive Priority where
  | normal | interactive | urgent | emergency | unknown
deriving DecidableEq

/-- src/types.rs enum SmsType. -/
inductive SmsType where
  | single | multipart | unicode
  | deliveryConfirmationSuccess | deliveryConfirmationFailure | unknown
deriving DecidableEq

/-- src/types.rs SmsMessage. -/
structure SmsMessage where
  smstat : SmsStat
  index : Int
  phone : String
  content : String
  date : String
  sca : String
  save_type : Int
  priority : Priority
  sms_type : SmsType
deriving DecidableEq

/-- src/modem.rs SmsMessages: the Messages wrapper.  The serde default on
    the Message field is what turns an absent Message list into []. -/
structure SmsMessages where
  message : List SmsMessage
deriving DecidableEq

/-- src/modem.rs SmsListResponse. -/
structure SmsListResponse where
  count : Int
  messages : SmsMessages
deriving DecidableEq

/-- src/modem.rs Phones. -/
structure Phones where
  phone : List String
deriving DecidableEq

/-- src/modem.rs SmsRequest: the send request body. -/
structure SmsRequest where
  index : Int
  phones : Phones
  sca : String
  content : String
  length : Int
  reserved : Int
  date : Int
deriving DecidableEq

/-- Rust `as i32` on a usize value: wrap into [-2^31, 2^31). -/
def asI32 (n : Nat) : Int :=
  let m : Nat := n % 2 ^ 32
  if m < 2 ^ 31 then (m : Int) else (m : Int) - 2 ^ 32

/-- Rust char::is_whitespace: the Unicode White_Space code points. -/
def rustIsWhitespace (c : Char) : Bool :=
  (0x09 ≤ c.val && c.val ≤ 0x0D) || c.val == 0x20 || c.val == 0x85 ||
  c.val == 0xA0 || c.val == 0x1680 || (0x2000 ≤ c.val && c.val ≤ 0x200A) ||
  c.val == 0x2028 || c.val == 0x2029 || c.val == 0x202F || c.val == 0x205F ||
  c.val == 0x3000

/-- Rust str::strip_prefix at the character-list level: some rest when
    s = pat ++ rest, none when pat does not lead s. -/
def stripLead : List Char → List Char → Option (List Char)
  | [], rest => some rest
  | _ :: _, [] => none
  | a :: as, b :: bs => if a == b then stripLead as bs else none

/-- Rust str-pattern test: pat leads s. -/
def leadsWith : List Char → List Char → Bool
  | [], _ => true
  | _ :: _, [] => false
  | a :: as, b :: bs => a == b && leadsWith as bs

/-- Rust str::contains with a literal pattern: pat occurs somewhere in s. -/
def occursIn (pat : List Char) : List Char → Bool
  | [] => pat.isEmpty
  | c :: rest => leadsWith pat (c :: rest) || occursIn pat rest

/-- Decimal digit value of a character. -/
def decDigit? (c : Char) : Option Nat :=
  if c.isDigit then some (c.toNat - 48) else none

def natFromDigitsAux : List Char → Nat → Option Nat
  | [], n => some n
  | c :: cs, n =>
    match decDigit? c with
    | some d => natFromDigitsAux cs (10 * n + d)
    | none => none

/-- Integer text as parsed by serde for the repr-coded and integer fields
    (an optional leading minus sign followed by decimal digits). -/
def intOfText (s : String) : Option Int :=
  match s.data with
  | [] => none
  | c :: cs =>
    if c == '-' then
      match cs with
      | [] => none
      | _ => (natFromDigitsAux cs 0).map fun n => -(n : Int)
    else (natFromDigitsAux (c :: cs) 0).map fun n => (n : Int)

/-- First child element with the given name (serde field resolution). -/
def findChild (n : String) : List Xml → Option Xml
  | [] => none
  | .elem m cs :: rest => if m = n then some (.elem m cs) else findChild n rest
  | .text _ :: rest => findChild n rest

/-- The character data of a leaf element (an empty element reads as ""). -/
def childText : Xml → Option String
  | .elem _ [.text s] => some s
  | .elem _ [] => some ""
  | _ => none

def isElemNamed (n : String) : Xml → Bool
  | .elem m _ => m = n
  | .text _ => false

/-- Deserializer of ModemErrorResponse derived from its serde attributes
    (root renamed "error", integer code, string message). -/
def parseModemErrorResponse (x : Xml) : Option ModemErrorResponse :=
  match x with
  | .elem "error" cs =>
    match findChild "code" cs, findChild "message" cs with
    | some cx, some mx =>
      match childText cx, childText mx with
      | some ct, some mt =>
        match intOfText ct with
        | some c => some ⟨c, mt⟩
        | none => none
      | _, _ => none
    | _, _ => none
  | _ => none

/-- Deserializer of SessionInfo derived from its serde attributes
    (root "response", fields renamed SesInfo and TokInfo). -/
def parseSessionInfo (x : Xml) : Option SessionInfo :=
  match x with
  | .elem "response" cs =>
    match findChild "SesInfo" cs, findChild "TokInfo" cs with
    | some sx, some tx =>
      match childText sx, childText tx with
      | some s, some t => some ⟨s, t⟩
      | _, _ => none
    | _, _ => none
  | _ => none

/-- src/types.rs SmsStat wire codes (serde repr i32). -/
def SmsStat.ofCode (c : Int) : Option SmsStat :=
  if c = 0 then some .unread
  else if c = 1 then some .read
  else if c = -1 then some .unknown
  else none

/-- src/types.rs Priority wire codes (serde repr i32). -/
def Priority.ofCode (c : Int) : Option Priority :=
  if c = 0 then some .normal
  else if c = 1 then some .interactive
  else if c = 2 then some .urgent
  else if c = 3 then some .emergency
  else if c = 4 then some .unknown
  else none

/-- src/types.rs SmsType wire codes (serde repr i32). -/
def SmsType.ofCode (c : Int) : Option SmsType :=
  if c = 1 then some .single
  else if c = 2 then some .multipart
  else if c = 5 then some .unicode
  else if c = 7 then some .deliveryConfirmationSuccess
  else if c = 8 then some .deliveryConfirmationFailure
  else if c = -1 then some .unknown
  else none

/-- Reads one child field of an element as an integer. -/
def intField (n : String) (cs : List Xml) : Option Int :=
  match findChild n cs with
  | some x => (childText x).bind intOfText
  | none => none

/-- Reads one child field of an element as a string. -/
def strField (n : String) (cs : List Xml) : Option String :=
  match findChild n cs with
  | some x => childText x
  | none => none

/-- Deserializer of SmsMessage derived from its serde attributes in
    src/types.rs (renamed fields, repr-coded enums). -/
def parseSmsMessage (x : Xml) : Option SmsMessage :=
  match x with
  | .elem "Message" cs =>
    match intField "Smstat" cs, intField "Index" cs, strField "Phone" cs,
          strField "Content" cs, strField "Date" cs, strField "Sca" cs with
    | some st, some ix, some ph, some co, some da, some sc =>
      match intField "SaveType" cs, intField "Priority" cs, intField "SmsType" cs with
      | some sv, some pr, some ty =>
        match SmsStat.ofCode st, Priority.ofCode pr, SmsType.ofCode ty with
        | some st2, some pr2, some ty2 =>
          some ⟨st2, ix, ph, co, da, sc, sv, pr2, ty2⟩
        | _, _, _ => none
      | _, _, _ => none
    | _, _, _, _, _, _ => none
  | _ => none

/-- Deserializer of SmsMessages: collects the Message child elements; the
    serde default on the field makes an absent Message list the empty list
    rather than a parse error. -/
def parseSmsMessages (x : Xml) : Option SmsMessages :=
  match x with
  | .elem "Messages" cs =>
    ((cs.filter (isElemNamed "Message")).mapM parseSmsMessage).map SmsMessages.mk
  | _ => none

/-- Deserializer of SmsListResponse (root "response", Count then Messages). -/
def parseSmsListResponse (x : Xml) : Option SmsListResponse :=
  match x with
  | .elem "response" cs =>
    match findChild "Count" cs with
    | some cx =>
      match (childText cx).bind intOfText with
      | some n =>
        match findChild "Messages" cs with
        | some mx =>
          match parseSmsMessages mx with
          | some ms => some ⟨n, ms⟩
          | none => none
        | none => none
      | none => none
    | none => none
  | _ => none

/-- src/modem.rs get_session_info, after the HTTP GET produced the body
    response_text: parse the session envelope, strip the fixed SessionID=
    marker from SesInfo, fall back to the device error envelope, else a
    diagnostic error carrying the raw body. -/
def get_session_info (readXml : String → Option Xml) (response_text : String) :
    Except Error (String × String) :=
  match (readXml response_text).bind parseSessionInfo with
  | some info =>
    match stripLead "SessionID=".data info.session_id.data with
    | some rest => Except.ok (String.mk rest, info.token)
    | none => Except.error (.sessionError "SesInfo did not start with SessionID=")
  | none =>
    match (readXml response_text).bind parseModemErrorResponse with
    | some err => Except.error (.modemError err.code err.message)
    | none => Except.error (.other ("Failed to get session info: " ++ response_text))

/-- The SmsRequest built by src/modem.rs send_sms lines 250-262: recipient
    with every whitespace character removed, index -1, single-element phone
    list, empty Sca, the content verbatim, length = the i32 cast of the
    content byte length (Rust String::len), reserved and date -1. -/
def sms_request_of (to_ message : String) : SmsRequest :=
  let to_clean : String := String.mk (to_.data.filter fun c => !(rustIsWhitespace c))
  { index := -1
    phones := ⟨[to_clean]⟩
    sca := ""
    content := message
    length := asI32 message.utf8ByteSize
    reserved := -1
    date := -1 }

/-- src/modem.rs send_sms.  net is the transport outcome of the POST (none:
    device unreachable, the reqwest error path; some body: the raw response
    text).  A dry run returns before the transport is consulted. -/
def send_sms (readXml : String → Option Xml) (net : Option String)
    (to_ message : String) (dry_run : Bool) : Except Error Unit :=
  let _req := sms_request_of to_ message
  if dry_run then Except.ok ()
  else
    match net with
    | none => Except.error (.reqwestError "error sending request")
    | some response_text =>
      if occursIn "<response>OK</response>".data response_text.data then Except.ok ()
      else
        match (readXml response_text).bind parseModemErrorResponse with
        | some err => Except.error (.modemError err.code err.message)
        | none => Except.error (.other ("Failed to send SMS: " ++ response_text))

/-- src/modem.rs get_sms_list, after the HTTP POST produced the body:
    parse the success shape, else the device error envelope, else a
    diagnostic error carrying the raw body. -/
def get_sms_list (readXml : String → Option Xml) (response_text : String) :
    Except Error SmsListResponse :=
  match (readXml response_text).bind parseSmsListResponse with
  | some r => Except.ok r
  | none =>
    match (readXml response_text).bind parseModemErrorResponse with
    | some err => Except.error (.modemError err.code err.message)
    | none => Except.error (.other ("Failed to get SMS list: " ++ response_text))

end Modem

/-- The property behind claim C10: relative to the pre-state, the post-state
    of a rejected call has every counter either unchanged or reset to zero by
    a lazy window roll, and any per-caller entry that did not exist before
    has zero counters. -/
def countersNotIncremented (s s2 : RateLimitState) : Prop :=
  (s2.hourly_count = s.hourly_count ∨ s2.hourly_count = 0) ∧
  (s2.daily_count = s.daily_count ∨ s2.daily_count = 0) ∧
  ∀ name cs2, alookup s2.client_state name = some cs2 →
    (∃ cs, alookup s.client_state name = some cs ∧
      (cs2.hourly_count = cs.hourly_count ∨ cs2.hourly_count = 0) ∧
      (cs2.daily_count = cs.daily_count ∨ cs2.daily_count = 0)) ∨
    (cs2.hourly_count = 0 ∧ cs2.daily_count = 0)

/- ===== Lemmas and claim theorems ===== -/

theorem alookup_ainsert_self {α : Type} (m : List (String × α)) (k : String) (v : α) :
    alookup (ainsert m k v) k = some v := by
  induction m with
  | nil => simp [ainsert, alookup]
  | cons p rest ih =>
    obtain ⟨k2, w⟩ := p
    by_cases h : k2 = k
    · simp [ainsert, alookup, h]
    · simp [ainsert, alookup, h, ih]

theorem alookup_ainsert_ne {α : Type} (m : List (String × α)) (k k2 : String) (v : α)
    (h : k ≠ k2) : alookup (ainsert m k v) k2 = alookup m k2 := by
  induction m with
  | nil => simp [ainsert, alookup, h]
  | cons p rest ih =>
    obtain ⟨k3, w⟩ := p
    by_cases h3 : k3 = k
    · subst h3; simp [ainsert, alookup, h]
    · simp [ainsert, alookup, h3, ih]

theorem RateLimitState.update_cases_global (s : RateLimitState) (now : Nat) :
    ((s.update now).hourly_count = s.hourly_count ∨ (s.update now).hourly_count = 0) ∧
    ((s.update now).daily_count = s.daily_count ∨ (s.update now).daily_count = 0) ∧
    (s.update now).client_state = s.client_state ∧
    ((s.update now).last_reset_hour = s.last_reset_hour ∨
      (s.update now).last_reset_hour = now) := by
  simp only [RateLimitState.update]
  split <;> split <;> simp

theorem ClientRateLimitState.update_cases_client (s : ClientRateLimitState) (now : Nat) :
    ((s.update now).hourly_count = s.hourly_count ∨ (s.update now).hourly_count = 0) ∧
    ((s.update now).daily_count = s.daily_count ∨ (s.update now).daily_count = 0) := by
  simp only [ClientRateLimitState.update]
  split <;> split <;> simp

theorem RateLimitState.update_noroll_global (s : RateLimitState) (now : Nat)
    (h1 : now - s.last_reset_hour < 3600) (h2 : now - s.last_reset_day < 86400) :
    s.update now = s := by
  simp only [RateLimitState.update]
  rw [if_neg (show ¬ now - s.last_reset_hour ≥ 3600 by omega)]
  rw [if_neg (show ¬ now - s.last_reset_day ≥ 86400 by omega)]

theorem ClientRateLimitState.update_noroll_client (s : ClientRateLimitState) (now : Nat)
    (h1 : now - s.last_reset_hour < 3600) (h2 : now - s.last_reset_day < 86400) :
    s.update now = s := by
  simp only [ClientRateLimitState.update]
  rw [if_neg (show ¬ now - s.last_reset_hour ≥ 3600 by omega)]
  rw [if_neg (show ¬ now - s.last_reset_day ≥ 86400 by omega)]

theorem ClientRateLimitState.update_new (now : Nat) :
    (ClientRateLimitState.new now).update now = ClientRateLimitState.new now := by
  apply ClientRateLimitState.update_noroll_client <;> simp [ClientRateLimitState.new]

theorem RateLimitState.update_hourly_of_noroll (s : RateLimitState) (now : Nat)
    (h : now - s.last_reset_hour < 3600) :
    (s.update now).hourly_count = s.hourly_count ∧
    (s.update now).last_reset_hour = s.last_reset_hour := by
  simp only [RateLimitState.update]
  rw [if_neg (show ¬ now - s.last_reset_hour ≥ 3600 by omega)]
  split <;> exact ⟨rfl, rfl⟩

theorem client_check_global_fields (rl : RateLimiter) (now : Nat) (c : Option String)
    (s : RateLimitState) :
    ((rl.client_check now c s).1.hourly_count = s.hourly_count) ∧
    ((rl.client_check now c s).1.daily_count = s.daily_count) ∧
    ((rl.client_check now c s).1.last_reset_hour = s.last_reset_hour) ∧
    ((rl.client_check now c s).1.last_reset_day = s.last_reset_day) := by
  simp only [RateLimiter.client_check]
  split
  · exact ⟨rfl, rfl, rfl, rfl⟩
  next name =>
    split
    · exact ⟨rfl, rfl, rfl, rfl⟩
    next =>
      split
      next => exact ⟨rfl, rfl, rfl, rfl⟩
      next =>
        split
        next => exact ⟨rfl, rfl, rfl, rfl⟩
        next => exact ⟨rfl, rfl, rfl, rfl⟩

theorem client_check_none (rl : RateLimiter) (now : Nat) (s : RateLimitState) :
    rl.client_check now none s = (s, none) := rfl

theorem client_check_unknown (rl : RateLimiter) (now : Nat) (name : String)
    (s : RateLimitState) (h : alookup rl.client_limits name = none) :
    rl.client_check now (some name) s = (s, none) := by
  simp only [RateLimiter.client_check, h]

/-- One call, hourly bookkeeping: the global hourly counter of the post-state
    is the rolled counter plus one exactly when the call was admitted, the
    hourly reset stamp is the rolled stamp, and an admitted call implies the
    rolled counter was strictly below the global hourly ceiling. -/
theorem check_step_hourly_any (rl : RateLimiter) (now : Nat) (c : Option String)
    (s : RateLimitState) :
    ((rl.check_and_increment now c s).1.last_reset_hour = (s.update now).last_reset_hour) ∧
    ((rl.check_and_increment now c s).1.hourly_count =
      (s.update now).hourly_count +
        (if isOk (rl.check_and_increment now c s).2 then 1 else 0)) ∧
    (isOk (rl.check_and_increment now c s).2 = true →
      (s.update now).hourly_count < rl.hourly_limit) := by
  obtain ⟨hc1, -, hc3, -⟩ := client_check_global_fields rl now c (s.update now)
  simp only [RateLimiter.check_and_increment]
  split
  next hge => exact ⟨rfl, by simp [isOk], by simp [isOk]⟩
  next hge =>
    split
    next hge2 => exact ⟨rfl, by simp [isOk], by simp [isOk]⟩
    next hge2 =>
      rcases hr : (rl.client_check now c (s.update now)).2 with _ | e <;> simp only [hr]
      · exact ⟨by simp [incrGlobal, hc3], by simp [incrGlobal, isOk, hc1],
          fun _ => by omega⟩
      · exact ⟨hc3, by simp [isOk, hc1], by simp [isOk]⟩

/-- One call at the global hourly ceiling: whatever the caller, the result is
    the global-scope hourly-period error. -/
theorem check_err_at_hourly_limit (rl : RateLimiter) (now : Nat) (c : Option String)
    (s : RateLimitState) (h : rl.hourly_limit ≤ (s.update now).hourly_count) :
    (rl.check_and_increment now c s).2 = Except.error (.globalHourly rl.hourly_limit) := by
  simp only [RateLimiter.check_and_increment]
  rw [if_pos h]

theorem counters_third_ainsert (s : RateLimitState)
    (ucs : List (String × ClientRateLimitState)) (hu3 : ucs = s.client_state)
    (name : String) (cs1 : ClientRateLimitState)
    (hcs1 : (∃ cs0, alookup s.client_state name = some cs0 ∧
              (cs1.hourly_count = cs0.hourly_count ∨ cs1.hourly_count = 0) ∧
              (cs1.daily_count = cs0.daily_count ∨ cs1.daily_count = 0)) ∨
            (cs1.hourly_count = 0 ∧ cs1.daily_count = 0)) :
    ∀ name2 cs2, alookup (ainsert ucs name cs1) name2 = some cs2 →
      (∃ cs, alookup s.client_state name2 = some cs ∧
        (cs2.hourly_count = cs.hourly_count ∨ cs2.hourly_count = 0) ∧
        (cs2.daily_count = cs.daily_count ∨ cs2.daily_count = 0)) ∨
      (cs2.hourly_count = 0 ∧ cs2.daily_count = 0) := by
  intro name2 cs2 hl
  by_cases hn : name = name2
  · subst hn
    rw [alookup_ainsert_self] at hl
    cases hl
    exact hcs1
  · rw [alookup_ainsert_ne _ _ _ _ hn, hu3] at hl
    exact Or.inl ⟨cs2, hl, Or.inl rfl, Or.inl rfl⟩

/-- On a per-client rejection, every entry of the returned per-client map is
    the old entry at most rolled, or a fresh entry with zero counters. -/
theorem client_check_rejected (rl : RateLimiter) (now : Nat) (c : Option String)
    (u : RateLimitState) (e : QuotaError)
    (hr : (rl.client_check now c u).2 = some e) :
    ∀ name2 cs2, alookup (rl.client_check now c u).1.client_state name2 = some cs2 →
      (∃ cs, alookup u.client_state name2 = some cs ∧
        (cs2.hourly_count = cs.hourly_count ∨ cs2.hourly_count = 0) ∧
        (cs2.daily_count = cs.daily_count ∨ cs2.daily_count = 0)) ∨
      (cs2.hourly_count = 0 ∧ cs2.daily_count = 0) := by
  rcases c with _ | name
  · simp [RateLimiter.client_check] at hr
  · rcases halk : alookup rl.client_limits name with _ | ⟨ch, cd⟩
    · rw [client_check_unknown rl now name _ halk] at hr
      simp at hr
    · rcases hcs : alookup u.client_state name with _ | cs0 <;>
        simp only [RateLimiter.client_check, halk, hcs,
          ClientRateLimitState.update_new] at hr ⊢
      · -- fresh entry: its counters are zero whichever test rejected
        split at hr
        next hP =>
          rw [if_pos hP]
          exact counters_third_ainsert u _ rfl name _ (Or.inr ⟨rfl, rfl⟩)
        next hP =>
          split at hr
          next hQ =>
            rw [if_neg hP, if_pos hQ]
            exact counters_third_ainsert u _ rfl name _ (Or.inr ⟨rfl, rfl⟩)
          next hQ => simp at hr
      · -- existing entry: it is only rolled on rejection
        split at hr
        next hP =>
          rw [if_pos hP]
          exact counters_third_ainsert u _ rfl name _
            (Or.inl ⟨cs0, hcs, (ClientRateLimitState.update_cases_client cs0 now).1,
              (ClientRateLimitState.update_cases_client cs0 now).2⟩)
        next hP =>
          split at hr
          next hQ =>
            rw [if_neg hP, if_pos hQ]
            exact counters_third_ainsert u _ rfl name _
              (Or.inl ⟨cs0, hcs, (ClientRateLimitState.update_cases_client cs0 now).1,
                (ClientRateLimitState.update_cases_client cs0 now).2⟩)
          next hQ => simp at hr

/-- Claim C10: a rejected check_and_increment call increments no usage
    counter: every global and per-caller counter of the post-state is the
    pre-state value or a lazy window roll to zero, and the only possible new
    per-caller entry has zero counters. -/
theorem C10_reject_increments_nothing (rl : RateLimiter) (now : Nat) (c : Option String)
    (s s2 : RateLimitState) (e : QuotaError)
    (h : rl.check_and_increment now c s = (s2, Except.error e)) :
    countersNotIncremented s s2 := by
  obtain ⟨hu1, hu2, hu3, -⟩ := RateLimitState.update_cases_global s now
  simp only [RateLimiter.check_and_increment] at h
  split at h
  · injection h with h1 h2
    subst h1
    exact ⟨hu1, hu2, fun name cs2 hl =>
      Or.inl ⟨cs2, by rw [← hu3]; exact hl, Or.inl rfl, Or.inl rfl⟩⟩
  · split at h
    · injection h with h1 h2
      subst h1
      exact ⟨hu1, hu2, fun name cs2 hl =>
        Or.inl ⟨cs2, by rw [← hu3]; exact hl, Or.inl rfl, Or.inl rfl⟩⟩
    · rcases hr : (rl.client_check now c (s.update now)).2 with _ | e1 <;>
        simp only [hr] at h
      · simp [incrGlobal] at h
      · injection h with h1 h2
        subst h1
        obtain ⟨hg1, hg2, -, -⟩ :=
          client_check_global_fields rl now c (s.update now)
        refine ⟨hg1 ▸ hu1, hg2 ▸ hu2, fun name2 cs2 hl => ?_⟩
        rcases client_check_rejected rl now c (s.update now) e1 hr name2 cs2 hl with
          ⟨cs, hcs, hh, hd⟩ | hz
        · exact Or.inl ⟨cs, hu3 ▸ hcs, hh, hd⟩
        · exact Or.inr hz

/-- Witness for C10 at a concrete rejected call: a zero-ceiling limiter
    rejects the first call and its state keeps all counters. -/
theorem C10_witness :
    countersNotIncremented ⟨0, 0, 0, 0, []⟩ ⟨0, 0, 0, 0, []⟩ :=
  C10_reject_increments_nothing ⟨0, 0, []⟩ 0 none ⟨0, 0, 0, 0, []⟩ ⟨0, 0, 0, 0, []⟩
    (.globalHourly 0) rfl

theorem countOk_cons (r : Except QuotaError Unit) (rs : List (Except QuotaError Unit)) :
    countOk (r :: rs) = (if isOk r then 1 else 0) + countOk rs := by
  cases hr : isOk r <;> simp [countOk, List.filter_cons, hr, Nat.add_comm]

/-- Hourly bookkeeping along a call sequence whose times stay inside the
    hourly window that starts at the initial reset stamp: the reset stamp is
    unchanged, the counter grows by exactly the number of admissions, and it
    never exceeds the ceiling once below it. -/
theorem run_hourly_invariant (rl : RateLimiter) (start : Nat) :
    ∀ (calls : List (Nat × Option String)) (s : RateLimitState),
      (∀ p ∈ calls, p.1 - start < 3600) → s.last_reset_hour = start →
      ((rl.run calls s).1.last_reset_hour = start ∧
       (rl.run calls s).1.hourly_count = s.hourly_count + countOk (rl.run calls s).2 ∧
       (s.hourly_count ≤ rl.hourly_limit →
         (rl.run calls s).1.hourly_count ≤ rl.hourly_limit)) := by
  intro calls
  induction calls with
  | nil => intro s hw hs; simp [RateLimiter.run, countOk, hs]
  | cons p rest ih =>
    intro s hw hs
    obtain ⟨now, c⟩ := p
    have hwp : now - start < 3600 := hw (now, c) (List.mem_cons_self _ _)
    have hw2 : ∀ q ∈ rest, q.1 - start < 3600 := fun q hq => hw q (List.mem_cons_of_mem _ hq)
    obtain ⟨hstep1, hstep2, hstep3⟩ := check_step_hourly_any rl now c s
    obtain ⟨hup1, hup2⟩ := RateLimitState.update_hourly_of_noroll s now (by rw [hs]; exact hwp)
    have hs1 : (rl.check_and_increment now c s).1.last_reset_hour = start := by
      rw [hstep1, hup2, hs]
    obtain ⟨ih1, ih2, ih3⟩ := ih (rl.check_and_increment now c s).1 hw2 hs1
    simp only [RateLimiter.run]
    refine ⟨ih1, ?_, ?_⟩
    · rw [ih2, countOk_cons, hstep2, hup1]
      omega
    · intro hle
      apply ih3
      rw [hstep2, hup1]
      by_cases hok : isOk (rl.check_and_increment now c s).2 = true
      · have hlt := hstep3 hok
        rw [hup1] at hlt
        rw [if_pos hok]
        omega
      · rw [if_neg hok]
        omega

/-- Claim C1: the global hourly ceiling is shared across all callers.  For
    every sequence of calls inside one hourly window starting from a fresh
    state, at most hourly_limit calls are admitted and the global hourly
    counter stays at most hourly_limit; once the admissions reach the
    ceiling, the next call inside the window is rejected with the
    global-scope hourly error whatever caller (configured or not) issues it;
    and a single call never pushes the counter past the ceiling, also across
    window rolls. -/
theorem C1_global_hourly_shared (rl : RateLimiter) (start : Nat)
    (calls : List (Nat × Option String))
    (hw : ∀ p ∈ calls, p.1 - start < 3600) :
    countOk (rl.run calls ⟨0, 0, start, start, []⟩).2 ≤ rl.hourly_limit ∧
    (rl.run calls ⟨0, 0, start, start, []⟩).1.hourly_count ≤ rl.hourly_limit ∧
    (countOk (rl.run calls ⟨0, 0, start, start, []⟩).2 = rl.hourly_limit →
      ∀ (now : Nat) (c : Option String), now - start < 3600 →
        (rl.check_and_increment now c (rl.run calls ⟨0, 0, start, start, []⟩).1).2 =
          Except.error (.globalHourly rl.hourly_limit)) ∧
    (∀ (now : Nat) (c : Option String) (s : RateLimitState),
      s.hourly_count ≤ rl.hourly_limit →
      (rl.check_and_increment now c s).1.hourly_count ≤ rl.hourly_limit) := by
  obtain ⟨h1, h2, h3⟩ :=
    run_hourly_invariant rl start calls ⟨0, 0, start, start, []⟩ hw rfl
  have hcnt : (rl.run calls ⟨0, 0, start, start, []⟩).1.hourly_count =
      countOk (rl.run calls ⟨0, 0, start, start, []⟩).2 := by
    rw [h2]; simp
  have hfin : (rl.run calls ⟨0, 0, start, start, []⟩).1.hourly_count ≤ rl.hourly_limit :=
    h3 (Nat.zero_le _)
  refine ⟨by omega, hfin, ?_, ?_⟩
  · intro hEq now c hnow
    have hfr : now - (rl.run calls ⟨0, 0, start, start, []⟩).1.last_reset_hour < 3600 := by
      rw [h1]; exact hnow
    obtain ⟨hq1, -⟩ :=
      RateLimitState.update_hourly_of_noroll (rl.run calls ⟨0, 0, start, start, []⟩).1 now hfr
    apply check_err_at_hourly_limit
    rw [hq1]
    omega
  · intro now c s hle
    obtain ⟨-, hstep2, hstep3⟩ := check_step_hourly_any rl now c s
    obtain ⟨hc1, -, -, -⟩ := RateLimitState.update_cases_global s now
    rw [hstep2]
    by_cases hok : isOk (rl.check_and_increment now c s).2 = true
    · have hlt := hstep3 hok
      rw [if_pos hok]
      omega
    · rw [if_neg hok]
      rcases hc1 with hc1 | hc1 <;> omega

/-- Witness for C1: with ceiling 1 a two-call sequence admits at most 1. -/
theorem C1_witness :
    countOk ((RateLimiter.mk 1 5 []).run [(0, none), (0, none)] ⟨0, 0, 0, 0, []⟩).2 ≤ 1 :=
  (C1_global_hourly_shared ⟨1, 5, []⟩ 0 [(0, none), (0, none)] (by decide)).1

/-- A call with no per-client rejection and both global ceilings strictly
    above the rolled-free counters is admitted and increments both global
    counters (caller absent). -/
theorem cai_none_ok (rl : RateLimiter) (now : Nat) (s : RateLimitState)
    (h1 : now - s.last_reset_hour < 3600) (h2 : now - s.last_reset_day < 86400)
    (hh : s.hourly_count < rl.hourly_limit) (hd : s.daily_count < rl.daily_limit) :
    rl.check_and_increment now none s =
      ({ s with hourly_count := s.hourly_count + 1, daily_count := s.daily_count + 1 },
       Except.ok ()) := by
  have hu := RateLimitState.update_noroll_global s now h1 h2
  simp only [RateLimiter.check_and_increment, hu, client_check_none]
  rw [if_neg (by omega), if_neg (by omega)]
  rfl

/-- A call arriving while the un-rolled global hourly counter is at its
    ceiling is rejected with the global hourly error and leaves the state
    unchanged, whatever the caller. -/
theorem cai_global_hourly_err (rl : RateLimiter) (now : Nat) (c : Option String)
    (s : RateLimitState)
    (h1 : now - s.last_reset_hour < 3600) (h2 : now - s.last_reset_day < 86400)
    (hh : rl.hourly_limit ≤ s.hourly_count) :
    rl.check_and_increment now c s = (s, Except.error (.globalHourly rl.hourly_limit)) := by
  have hu := RateLimitState.update_noroll_global s now h1 h2
  simp only [RateLimiter.check_and_increment, hu]
  rw [if_pos hh]

theorem countOk_append (xs ys : List (Except QuotaError Unit)) :
    countOk (xs ++ ys) = countOk xs + countOk ys := by
  simp [countOk, List.filter_append]

theorem countErr_append (xs ys : List (Except QuotaError Unit)) :
    countErr (xs ++ ys) = countErr xs + countErr ys := by
  simp [countErr, List.filter_append]

theorem countOk_replicate_ok (n : Nat) : countOk (List.replicate n (Except.ok ())) = n := by
  induction n with
  | zero => rfl
  | succ k ih =>
    rw [List.replicate_succ, countOk_cons, ih]
    simp [isOk]
    omega

theorem countOk_replicate_err (n : Nat) (e : QuotaError) :
    countOk (List.replicate n (Except.error e)) = 0 := by
  induction n with
  | zero => rfl
  | succ k ih =>
    rw [List.replicate_succ, countOk_cons, ih]
    simp [isOk]

theorem countErr_cons (r : Except QuotaError Unit) (rs : List (Except QuotaError Unit)) :
    countErr (r :: rs) = (if isOk r then 0 else 1) + countErr rs := by
  cases hr : isOk r <;> simp [countErr, List.filter_cons, hr, Nat.add_comm]

theorem countErr_replicate_ok (n : Nat) : countErr (List.replicate n (Except.ok ())) = 0 := by
  induction n with
  | zero => rfl
  | succ k ih =>
    rw [List.replicate_succ, countErr_cons, ih]
    simp [isOk]

theorem countErr_replicate_err (n : Nat) (e : QuotaError) :
    countErr (List.replicate n (Except.error e)) = n := by
  induction n with
  | zero => rfl
  | succ k ih =>
    rw [List.replicate_succ, countErr_cons, ih]
    simp [isOk]
    omega

/-- Anonymous calls inside one hourly window, any daily ceiling at least the
    hourly one: starting from counters i, the admissions fill the remaining
    hourly capacity and every further call is rejected with the global
    hourly error. -/
theorem run_none_fill (rl : RateLimiter) (hdl : rl.hourly_limit ≤ rl.daily_limit)
    (start : Nat) :
    ∀ (ts : List Nat) (i : Nat), (∀ t ∈ ts, t - start < 3600) → i ≤ rl.hourly_limit →
      (rl.run (ts.map fun t => (t, none)) ⟨i, i, start, start, []⟩).2 =
        List.replicate (min ts.length (rl.hourly_limit - i)) (Except.ok ()) ++
        List.replicate (ts.length - (rl.hourly_limit - i))
          (Except.error (.globalHourly rl.hourly_limit)) := by
  intro ts
  induction ts with
  | nil => intro i hw hi; simp [RateLimiter.run]
  | cons t ts ih =>
    intro i hw hi
    have hwt : t - start < 3600 := hw t (List.mem_cons_self _ _)
    have hw2 : ∀ q ∈ ts, q - start < 3600 := fun q hq => hw q (List.mem_cons_of_mem _ hq)
    rw [List.map_cons]
    by_cases hlt : i < rl.hourly_limit
    · have hstep := cai_none_ok rl t ⟨i, i, start, start, []⟩
        (by show t - start < 3600; omega) (by show t - start < 86400; omega)
        (by show i < rl.hourly_limit; omega) (by show i < rl.daily_limit; omega)
      simp only [RateLimiter.run, hstep]
      rw [ih (i + 1) hw2 (by omega)]
      have hmin : min (ts.length + 1) (rl.hourly_limit - i) =
          min ts.length (rl.hourly_limit - (i + 1)) + 1 := by omega
      have hsub : ts.length + 1 - (rl.hourly_limit - i) =
          ts.length - (rl.hourly_limit - (i + 1)) := by omega
      rw [List.length_cons, hmin, hsub, List.replicate_succ, List.cons_append]
    · have hstep := cai_global_hourly_err rl t none ⟨i, i, start, start, []⟩
        (by show t - start < 3600; omega) (by show t - start < 86400; omega)
        (by show rl.hourly_limit ≤ i; omega)
      simp only [RateLimiter.run, hstep]
      rw [ih i hw2 hi]
      have h0 : rl.hourly_limit - i = 0 := by omega
      rw [List.length_cons, h0]
      simp [List.replicate_succ]

/-- Claim C3 (amended: the global daily ceiling must be at least the hourly
    one): N calls with no caller name inside one hourly window from a fresh
    state, N above the global hourly ceiling L: exactly the first L are
    admitted and the other N - L are rejected with a quota error, for any
    serialisation of the concurrent calls. -/
theorem C3_concurrent_exact (rl : RateLimiter) (start : Nat) (ts : List Nat)
    (hdl : rl.hourly_limit ≤ rl.daily_limit)
    (hw : ∀ t ∈ ts, t - start < 3600)
    (hN : rl.hourly_limit < ts.length) :
    (rl.run (ts.map fun t => (t, none)) ⟨0, 0, start, start, []⟩).2 =
      List.replicate rl.hourly_limit (Except.ok ()) ++
        List.replicate (ts.length - rl.hourly_limit)
          (Except.error (.globalHourly rl.hourly_limit)) ∧
    countOk (rl.run (ts.map fun t => (t, none)) ⟨0, 0, start, start, []⟩).2 =
      rl.hourly_limit ∧
    countErr (rl.run (ts.map fun t => (t, none)) ⟨0, 0, start, start, []⟩).2 =
      ts.length - rl.hourly_limit := by
  have h := run_none_fill rl hdl start ts 0 hw (Nat.zero_le _)
  rw [Nat.sub_zero] at h
  have hmin : min ts.length rl.hourly_limit = rl.hourly_limit := by omega
  rw [hmin] at h
  refine ⟨h, ?_, ?_⟩
  · rw [h, countOk_append, countOk_replicate_ok, countOk_replicate_err]
    omega
  · rw [h, countErr_append, countErr_replicate_ok, countErr_replicate_err]
    omega

/-- Witness for C3: ceiling 2, daily 5, three calls: the run is two
    admissions then one global hourly rejection. -/
theorem C3_witness :
    countOk (((RateLimiter.mk 2 5 []).run ([0, 0, 0].map fun t => (t, none))
      ⟨0, 0, 0, 0, []⟩).2) = 2 :=
  (C3_concurrent_exact ⟨2, 5, []⟩ 0 [0, 0, 0] (by decide) (by decide) (by decide)).2.1

/-- Counterexample to C3 as stated: with global hourly ceiling 2 but global
    daily ceiling 0, three anonymous calls admit nobody, not exactly 2. -/
theorem C3_counterexample :
    countOk (((RateLimiter.mk 2 0 []).run [(0, none), (0, none), (0, none)]
      ⟨0, 0, 0, 0, []⟩).2) ≠ 2 := by
  decide

/-- Per-client block on a configured caller whose existing entry, free of
    rolls, is strictly below both of its ceilings: the entry is incremented
    and no rejection is raised. -/
theorem client_check_known_ok (rl : RateLimiter) (now : Nat) (name : String)
    (ch cd : Nat) (cs0 : ClientRateLimitState) (s : RateLimitState)
    (halk : alookup rl.client_limits name = some (ch, cd))
    (hcs : alookup s.client_state name = some cs0)
    (hc1 : now - cs0.last_reset_hour < 3600) (hc2 : now - cs0.last_reset_day < 86400)
    (hch : cs0.hourly_count < ch) (hcd : cs0.daily_count < cd) :
    rl.client_check now (some name) s =
      ({ s with client_state := (ainsert s.client_state name
          { cs0 with hourly_count := cs0.hourly_count + 1,
                     daily_count := cs0.daily_count + 1 }) },
       none) := by
  have hcu := ClientRateLimitState.update_noroll_client cs0 now hc1 hc2
  simp only [RateLimiter.client_check, halk, hcs, hcu]
  rw [if_neg (by omega), if_neg (by omega)]

/-- Per-client block on a configured caller whose existing roll-free entry is
    at its hourly ceiling: the caller-scope hourly rejection, entry kept. -/
theorem client_check_known_err_hourly (rl : RateLimiter) (now : Nat) (name : String)
    (ch cd : Nat) (cs0 : ClientRateLimitState) (s : RateLimitState)
    (halk : alookup rl.client_limits name = some (ch, cd))
    (hcs : alookup s.client_state name = some cs0)
    (hc1 : now - cs0.last_reset_hour < 3600) (hc2 : now - cs0.last_reset_day < 86400)
    (hch : ch ≤ cs0.hourly_count) :
    rl.client_check now (some name) s =
      ({ s with client_state := ainsert s.client_state name cs0 },
       some (.clientHourly name ch)) := by
  have hcu := ClientRateLimitState.update_noroll_client cs0 now hc1 hc2
  simp only [RateLimiter.client_check, halk, hcs, hcu]
  rw [if_pos hch]

/-- Per-client block on a configured caller with no entry yet and positive
    ceilings: a fresh entry is created at time now and admitted once. -/
theorem client_check_fresh_ok (rl : RateLimiter) (now : Nat) (name : String)
    (ch cd : Nat) (s : RateLimitState)
    (halk : alookup rl.client_limits name = some (ch, cd))
    (hcs : alookup s.client_state name = none) (hch : 0 < ch) (hcd : 0 < cd) :
    rl.client_check now (some name) s =
      ({ s with client_state := ainsert s.client_state name ⟨1, 1, now, now⟩ }, none) := by
  have hne1 : ¬ (ClientRateLimitState.new now).hourly_count ≥ ch := Nat.not_le.mpr hch
  have hne2 : ¬ (ClientRateLimitState.new now).daily_count ≥ cd := Nat.not_le.mpr hcd
  simp only [RateLimiter.client_check, halk, hcs, ClientRateLimitState.update_new]
  rw [if_neg hne1, if_neg hne2]
  rfl

/-- Per-client block on a configured caller with no entry yet and a zero
    hourly ceiling: the fresh entry is created and the call rejected. -/
theorem client_check_fresh_err_hourly (rl : RateLimiter) (now : Nat) (name : String)
    (cd : Nat) (s : RateLimitState)
    (halk : alookup rl.client_limits name = some (0, cd))
    (hcs : alookup s.client_state name = none) :
    rl.client_check now (some name) s =
      ({ s with client_state := ainsert s.client_state name (ClientRateLimitState.new now) },
       some (.clientHourly name 0)) := by
  have hpos : (ClientRateLimitState.new now).hourly_count ≥ 0 := Nat.zero_le _
  simp only [RateLimiter.client_check, halk, hcs, ClientRateLimitState.update_new]
  rw [if_pos hpos]

/-- One admitted call of a configured caller with a single-entry map, all
    counters and the entry free of rolls and strictly below every ceiling. -/
theorem cai_client_entry_ok (rl : RateLimiter) (name : String) (ch cd : Nat)
    (now g d rh rd : Nat) (cs0 : ClientRateLimitState)
    (halk : alookup rl.client_limits name = some (ch, cd))
    (h1 : now - rh < 3600) (h2 : now - rd < 86400)
    (hc1 : now - cs0.last_reset_hour < 3600) (hc2 : now - cs0.last_reset_day < 86400)
    (hgh : g < rl.hourly_limit) (hgd : d < rl.daily_limit)
    (hch : cs0.hourly_count < ch) (hcd : cs0.daily_count < cd) :
    rl.check_and_increment now (some name) ⟨g, d, rh, rd, [(name, cs0)]⟩ =
      (⟨g + 1, d + 1, rh, rd,
        [(name, { cs0 with hourly_count := cs0.hourly_count + 1,
                           daily_count := cs0.daily_count + 1 })]⟩,
       Except.ok ()) := by
  have hu := RateLimitState.update_noroll_global ⟨g, d, rh, rd, [(name, cs0)]⟩ now h1 h2
  have hcc := client_check_known_ok rl now name ch cd cs0 ⟨g, d, rh, rd, [(name, cs0)]⟩
    halk (by simp [alookup]) hc1 hc2 hch hcd
  have hG1 : ¬ (g ≥ rl.hourly_limit) := Nat.not_le.mpr hgh
  have hG2 : ¬ (d ≥ rl.daily_limit) := Nat.not_le.mpr hgd
  simp only [RateLimiter.check_and_increment, hu, hcc]
  rw [if_neg hG1, if_neg hG2]
  simp [incrGlobal, ainsert]

/-- One rejected call of a configured caller at its hourly ceiling, with a
    single-entry map free of rolls and both global counters below their
    ceilings: the caller-scope hourly error, state unchanged. -/
theorem cai_client_entry_err_hourly (rl : RateLimiter) (name : String) (ch cd : Nat)
    (now g d rh rd : Nat) (cs0 : ClientRateLimitState)
    (halk : alookup rl.client_limits name = some (ch, cd))
    (h1 : now - rh < 3600) (h2 : now - rd < 86400)
    (hc1 : now - cs0.last_reset_hour < 3600) (hc2 : now - cs0.last_reset_day < 86400)
    (hgh : g < rl.hourly_limit) (hgd : d < rl.daily_limit)
    (hch : ch ≤ cs0.hourly_count) :
    rl.check_and_increment now (some name) ⟨g, d, rh, rd, [(name, cs0)]⟩ =
      (⟨g, d, rh, rd, [(name, cs0)]⟩, Except.error (.clientHourly name ch)) := by
  have hu := RateLimitState.update_noroll_global ⟨g, d, rh, rd, [(name, cs0)]⟩ now h1 h2
  have hcc := client_check_known_err_hourly rl now name ch cd cs0
    ⟨g, d, rh, rd, [(name, cs0)]⟩ halk (by simp [alookup]) hc1 hc2 hch
  have hG1 : ¬ (g ≥ rl.hourly_limit) := Nat.not_le.mpr hgh
  have hG2 : ¬ (d ≥ rl.daily_limit) := Nat.not_le.mpr hgd
  simp only [RateLimiter.check_and_increment, hu, hcc]
  rw [if_neg hG1, if_neg hG2]
  simp [ainsert]

/-- First admitted call of a configured caller with no entry yet. -/
theorem cai_client_fresh_ok (rl : RateLimiter) (name : String) (ch cd : Nat)
    (now g d rh rd : Nat)
    (halk : alookup rl.client_limits name = some (ch, cd))
    (h1 : now - rh < 3600) (h2 : now - rd < 86400)
    (hgh : g < rl.hourly_limit) (hgd : d < rl.daily_limit)
    (hch : 0 < ch) (hcd : 0 < cd) :
    rl.check_and_increment now (some name) ⟨g, d, rh, rd, []⟩ =
      (⟨g + 1, d + 1, rh, rd, [(name, ⟨1, 1, now, now⟩)]⟩, Except.ok ()) := by
  have hu := RateLimitState.update_noroll_global ⟨g, d, rh, rd, []⟩ now h1 h2
  have hcc := client_check_fresh_ok rl now name ch cd ⟨g, d, rh, rd, []⟩
    halk (by simp [alookup]) hch hcd
  have hG1 : ¬ (g ≥ rl.hourly_limit) := Nat.not_le.mpr hgh
  have hG2 : ¬ (d ≥ rl.daily_limit) := Nat.not_le.mpr hgd
  simp only [RateLimiter.check_and_increment, hu, hcc]
  rw [if_neg hG1, if_neg hG2]
  simp [incrGlobal, ainsert]

/-- First call of a caller configured with a zero hourly ceiling: the entry
    is created and the call rejected with the caller-scope hourly error. -/
theorem cai_client_fresh_err_hourly (rl : RateLimiter) (name : String) (cd : Nat)
    (now g d rh rd : Nat)
    (halk : alookup rl.client_limits name = some (0, cd))
    (h1 : now - rh < 3600) (h2 : now - rd < 86400)
    (hgh : g < rl.hourly_limit) (hgd : d < rl.daily_limit) :
    rl.check_and_increment now (some name) ⟨g, d, rh, rd, []⟩ =
      (⟨g, d, rh, rd, [(name, ClientRateLimitState.new now)]⟩,
       Except.error (.clientHourly name 0)) := by
  have hu := RateLimitState.update_noroll_global ⟨g, d, rh, rd, []⟩ now h1 h2
  have hcc := client_check_fresh_err_hourly rl now name cd ⟨g, d, rh, rd, []⟩
    halk (by simp [alookup])
  have hG1 : ¬ (g ≥ rl.hourly_limit) := Nat.not_le.mpr hgh
  have hG2 : ¬ (d ≥ rl.daily_limit) := Nat.not_le.mpr hgd
  simp only [RateLimiter.check_and_increment, hu, hcc]
  rw [if_neg hG1, if_neg hG2]
  simp [ainsert]

/-- Sequenced calls of one configured caller inside one hourly window,
    starting with matching counters i and a single entry: the remaining
    caller hourly capacity is filled and the last call rejected with the
    caller-scope hourly error. -/
theorem run_client_fill (rl : RateLimiter) (name : String) (H D : Nat)
    (halk : alookup rl.client_limits name = some (H, D)) (hHD : H ≤ D)
    (hGh : H < rl.hourly_limit) (hGd : H < rl.daily_limit) (start : Nat) :
    ∀ (ts : List Nat) (i t0 : Nat),
      (∀ t ∈ ts, start ≤ t ∧ t < start + 3600) →
      start ≤ t0 → i ≤ H → ts.length = H + 1 - i →
      (rl.run (ts.map fun t => (t, some name))
          ⟨i, i, start, start, [(name, ⟨i, i, t0, t0⟩)]⟩).2 =
        List.replicate (H - i) (Except.ok ()) ++
          [Except.error (.clientHourly name H)] := by
  intro ts
  induction ts with
  | nil =>
    intro i t0 hw ht0 hi hlen
    simp at hlen
    omega
  | cons t ts ih =>
    intro i t0 hw ht0 hi hlen
    obtain ⟨hts, htl⟩ := hw t (List.mem_cons_self _ _)
    have hw2 : ∀ q ∈ ts, start ≤ q ∧ q < start + 3600 :=
      fun q hq => hw q (List.mem_cons_of_mem _ hq)
    rw [List.length_cons] at hlen
    rw [List.map_cons]
    by_cases hiH : i < H
    · have hstep := cai_client_entry_ok rl name H D t i i start start ⟨i, i, t0, t0⟩
        halk (by omega) (by omega)
        (by show t - t0 < 3600; omega) (by show t - t0 < 86400; omega)
        (by omega) (by omega)
        (by show i < H; omega) (by show i < D; omega)
      simp only [RateLimiter.run, hstep]
      rw [ih (i + 1) t0 hw2 ht0 (by omega) (by omega)]
      have hrep : H - i = (H - (i + 1)) + 1 := by omega
      rw [hrep, List.replicate_succ, List.cons_append]
    · have hstep := cai_client_entry_err_hourly rl name H D t i i start start
        ⟨i, i, t0, t0⟩ halk (by omega) (by omega)
        (by show t - t0 < 3600; omega) (by show t - t0 < 86400; omega)
        (by omega) (by omega) (by show H ≤ i; omega)
      have hts0 : ts = [] := by
        have : ts.length = 0 := by omega
        exact List.length_eq_zero.mp this
      subst hts0
      have h0 : H - i = 0 := by omega
      simp only [List.map_cons, List.map_nil, RateLimiter.run, hstep, h0]
      simp

/-- Claim C2 (amended: the caller's own daily ceiling must also be at least
    its hourly ceiling H): for a caller configured with hourly ceiling H,
    daily ceiling at least H and both global ceilings strictly above H, a
    sequence of H+1 calls naming that caller inside one hourly window from a
    fresh state admits exactly the first H and rejects the (H+1)-th with the
    caller-scope hourly error; and a caller name absent from the mapping is
    processed exactly like an anonymous call (global-only accounting). -/
theorem C2_caller_ceiling (rl : RateLimiter) (name : String) (H D start : Nat)
    (ts : List Nat)
    (halk : alookup rl.client_limits name = some (H, D)) (hHD : H ≤ D)
    (hGh : H < rl.hourly_limit) (hGd : H < rl.daily_limit)
    (hw : ∀ t ∈ ts, start ≤ t ∧ t < start + 3600)
    (hlen : ts.length = H + 1) :
    (rl.run (ts.map fun t => (t, some name)) ⟨0, 0, start, start, []⟩).2 =
      List.replicate H (Except.ok ()) ++ [Except.error (.clientHourly name H)] ∧
    (∀ (name2 : String) (now : Nat) (s : RateLimitState),
      alookup rl.client_limits name2 = none →
      rl.check_and_increment now (some name2) s = rl.check_and_increment now none s) := by
  constructor
  · rcases ts with _ | ⟨t, ts⟩
    · simp at hlen
    · obtain ⟨hts, htl⟩ := hw t (List.mem_cons_self _ _)
      have hw2 : ∀ q ∈ ts, start ≤ q ∧ q < start + 3600 :=
        fun q hq => hw q (List.mem_cons_of_mem _ hq)
      rw [List.length_cons] at hlen
      rcases Nat.eq_zero_or_pos H with hH0 | hHpos
      · subst hH0
        have hstep := cai_client_fresh_err_hourly rl name D t 0 0 start start
          halk (by omega) (by omega) (by omega) (by omega)
        have hts0 : ts = [] := List.length_eq_zero.mp (by omega)
        subst hts0
        simp only [List.map_cons, List.map_nil, RateLimiter.run, hstep]
        simp
      · have hstep := cai_client_fresh_ok rl name H D t 0 0 start start
          halk (by omega) (by omega) (by omega) (by omega) hHpos (by omega)
        simp only [List.map_cons, RateLimiter.run, hstep]
        rw [run_client_fill rl name H D halk hHD hGh hGd start ts 1 t hw2 hts
          (by omega) (by omega)]
        have hrep : Except.ok () :: List.replicate (H - 1) (Except.ok ()) =
            List.replicate H (Except.ok () : Except QuotaError Unit) := by
          rw [← List.replicate_succ]
          congr 1
          omega
        rw [← hrep, List.cons_append]
  · intro name2 now s h
    simp only [RateLimiter.check_and_increment,
      client_check_unknown rl now name2 _ h, client_check_none]

/-- Witness for C2: caller a with ceilings (1, 1), globals 2: the two-call
    run is one admission then the caller-scope hourly rejection. -/
theorem C2_witness :
    ((RateLimiter.mk 2 2 [("a", (1, 1))]).run [(0, some "a"), (0, some "a")]
      ⟨0, 0, 0, 0, []⟩).2 =
      List.replicate 1 (Except.ok ()) ++ [Except.error (.clientHourly "a" 1)] :=
  (C2_caller_ceiling ⟨2, 2, [("a", (1, 1))]⟩ "a" 1 1 0 [0, 0] rfl (by decide)
    (by decide) (by decide) (by decide) rfl).1

/-- Counterexample to C2 as stated: caller a configured with hourly ceiling
    2 but daily ceiling 1 and both globals 10: the second of the first H = 2
    calls is already rejected (with the caller-scope daily error), so the
    first H calls do not all succeed. -/
theorem C2_counterexample :
    ((RateLimiter.mk 10 10 [("a", (2, 1))]).run [(0, some "a"), (0, some "a")]
        ⟨0, 0, 0, 0, []⟩).2 =
      [Except.ok (), Except.error (.clientDaily "a" 1)] ∧
    ((RateLimiter.mk 10 10 [("a", (2, 1))]).run [(0, some "a"), (0, some "a")]
        ⟨0, 0, 0, 0, []⟩).2 ≠
      [Except.ok (), Except.ok ()] := by
  refine ⟨rfl, fun h => ?_⟩
  have h2 : ([Except.ok (), Except.error (QuotaError.clientDaily "a" 1)] :
      List (Except QuotaError Unit)) = [Except.ok (), Except.ok ()] :=
    Eq.trans (Eq.symm (show ((RateLimiter.mk 10 10 [("a", (2, 1))]).run
      [(0, some "a"), (0, some "a")] ⟨0, 0, 0, 0, []⟩).2 =
      [Except.ok (), Except.error (QuotaError.clientDaily "a" 1)] from rfl)) h
  simp at h2

theorem leadsWith_iff (p s : List Char) :
    Modem.leadsWith p s = true ↔ ∃ r, s = p ++ r := by
  induction p generalizing s with
  | nil => simp [Modem.leadsWith]
  | cons a as ih =>
    cases s with
    | nil => simp [Modem.leadsWith]
    | cons b bs =>
      simp only [Modem.leadsWith, Bool.and_eq_true, beq_iff_eq, ih]
      constructor
      · rintro ⟨hab, r, hr⟩
        exact ⟨r, by rw [List.cons_append, ← hab, hr]⟩
      · rintro ⟨r, hr⟩
        rw [List.cons_append] at hr
        injection hr with h1 h2
        exact ⟨h1.symm, r, h2⟩

theorem occursIn_iff (p s : List Char) :
    Modem.occursIn p s = true ↔ ∃ l r, s = l ++ p ++ r := by
  induction s with
  | nil =>
    cases hp : p with
    | nil => exact ⟨fun _ => ⟨[], [], rfl⟩, fun _ => rfl⟩
    | cons x xs =>
      constructor
      · intro h
        simp [Modem.occursIn] at h
      · rintro ⟨l, r, h⟩
        cases l <;> simp at h
  | cons c cs ih =>
    simp only [Modem.occursIn, Bool.or_eq_true, leadsWith_iff, ih]
    constructor
    · rintro (⟨r, hr⟩ | ⟨l, r, hr⟩)
      · exact ⟨[], r, by simpa using hr⟩
      · exact ⟨c :: l, r, by simp [hr]⟩
    · rintro ⟨l, r, hr⟩
      cases l with
      | nil => exact Or.inl ⟨r, by simpa using hr⟩
      | cons x xs =>
        rw [List.cons_append, List.cons_append] at hr
        injection hr with h1 h2
        exact Or.inr ⟨xs, r, h2⟩

/-- The non-dry send on a delivered response body, as one conditional. -/
theorem send_sms_false_some (readXml : String → Option Modem.Xml)
    (body to_ message : String) :
    Modem.send_sms readXml (some body) to_ message false =
      (if Modem.occursIn "<response>OK</response>".data body.data then Except.ok ()
       else
        match (readXml body).bind Modem.parseModemErrorResponse with
        | some err => Except.error (.modemError err.code err.message)
        | none => Except.error (.other ("Failed to send SMS: " ++ body))) := rfl

/-- Claim C4: a dry-run send returns success whatever the transport would
    answer (so no network call can be observed), and a non-dry send against
    an unreachable device surfaces the transport error. -/
theorem C4_dry_run_contract (readXml : String → Option Modem.Xml) (net : Option String)
    (to_ message : String) :
    Modem.send_sms readXml net to_ message true = Except.ok () ∧
    Modem.send_sms readXml none to_ message false =
      Except.error (.reqwestError "error sending request") :=
  ⟨rfl, rfl⟩

/-- Claim C5: a delivered send response succeeds exactly when the body
    contains the literal marker substring; any other body fails, as the
    device error envelope when it parses, else as the protocol error
    carrying the raw body. -/
theorem C5_send_success_marker (readXml : String → Option Modem.Xml)
    (body to_ message : String) :
    (Modem.send_sms readXml (some body) to_ message false = Except.ok () ↔
      ∃ l r, body.data = l ++ "<response>OK</response>".data ++ r) ∧
    (∀ e : Modem.ModemErrorResponse,
      (¬ ∃ l r, body.data = l ++ "<response>OK</response>".data ++ r) →
      (readXml body).bind Modem.parseModemErrorResponse = some e →
      Modem.send_sms readXml (some body) to_ message false =
        Except.error (.modemError e.code e.message)) ∧
    ((¬ ∃ l r, body.data = l ++ "<response>OK</response>".data ++ r) →
      (readXml body).bind Modem.parseModemErrorResponse = none →
      Modem.send_sms readXml (some body) to_ message false =
        Except.error (.other ("Failed to send SMS: " ++ body))) := by
  have hiff := occursIn_iff "<response>OK</response>".data body.data
  by_cases hc : Modem.occursIn "<response>OK</response>".data body.data = true
  · rw [send_sms_false_some, if_pos hc]
    exact ⟨⟨fun _ => hiff.mp hc, fun _ => rfl⟩,
      fun e hno _ => absurd (hiff.mp hc) hno,
      fun hno _ => absurd (hiff.mp hc) hno⟩
  · rw [send_sms_false_some, if_neg hc]
    refine ⟨?_, ?_, ?_⟩
    · constructor
      · intro h
        rcases hpe : (readXml body).bind Modem.parseModemErrorResponse with _ | e <;>
          simp [hpe] at h
      · intro hex
        exact absurd (hiff.mpr hex) hc
    · intro e hno hpe
      simp [hpe]
    · intro hno hpe
      simp [hpe]

/-- Witness for C5 at a body with no marker and no error envelope. -/
theorem C5_witness :
    Modem.send_sms (fun _ => none) (some "bad") "t" "m" false =
      Except.error (.other ("Failed to send SMS: " ++ "bad")) :=
  (C5_send_success_marker (fun _ => none) "bad" "t" "m").2.2
    (fun hex => absurd ((occursIn_iff _ _).mpr hex) (by decide)) rfl

theorem stripLead_eq_some_iff (p s r : List Char) :
    Modem.stripLead p s = some r ↔ s = p ++ r := by
  induction p generalizing s with
  | nil => simp [Modem.stripLead]
  | cons a as ih =>
    cases s with
    | nil =>
      simp [Modem.stripLead]
    | cons b bs =>
      simp only [Modem.stripLead]
      by_cases hab : a = b
      · subst hab
        rw [if_pos (by simp)]
        rw [ih]
        simp [List.cons_append]
      · rw [if_neg (by simp [hab])]
        constructor
        · intro h
          simp at h
        · intro h
          rw [List.cons_append] at h
          injection h with h1 h2
          exact absurd h1.symm hab

/-- Claim C6: session id extraction strips the fixed SessionID= marker from
    the SesInfo field; a field value that does not start with the marker is
    rejected with the session format error. -/
theorem C6_session_marker_strip (readXml : String → Option Modem.Xml)
    (body sid tok : String)
    (h : (readXml body).bind Modem.parseSessionInfo = some ⟨sid, tok⟩) :
    (∀ r : List Char, sid.data = "SessionID=".data ++ r →
      Modem.get_session_info readXml body = Except.ok (String.mk r, tok)) ∧
    ((∀ r : List Char, sid.data ≠ "SessionID=".data ++ r) →
      Modem.get_session_info readXml body =
        Except.error (.sessionError "SesInfo did not start with SessionID=")) := by
  constructor
  · intro r hr
    have hs : Modem.stripLead "SessionID=".data sid.data = some r :=
      (stripLead_eq_some_iff _ _ _).mpr hr
    simp only [Modem.get_session_info, h, hs]
  · intro hno
    have hs : Modem.stripLead "SessionID=".data sid.data = none := by
      rcases hq : Modem.stripLead "SessionID=".data sid.data with _ | r
      · rfl
      · exact absurd ((stripLead_eq_some_iff _ _ _).mp hq) (hno r)
    simp only [Modem.get_session_info, h, hs]

/-- Witness for C6: the two concrete field values of the spec scenario. -/
theorem C6_witness :
    Modem.get_session_info
      (fun _ => some (.elem "response" [.elem "SesInfo" [.text "SessionID=abc123"],
        .elem "TokInfo" [.text "tok"]])) "b" = Except.ok ("abc123", "tok") ∧
    Modem.get_session_info
      (fun _ => some (.elem "response" [.elem "SesInfo" [.text "abc123"],
        .elem "TokInfo" [.text "tok"]])) "b" =
      Except.error (.sessionError "SesInfo did not start with SessionID=") := by
  constructor
  · exact (C6_session_marker_strip
      (fun _ => some (.elem "response" [.elem "SesInfo" [.text "SessionID=abc123"],
        .elem "TokInfo" [.text "tok"]])) "b" "SessionID=abc123" "tok" rfl).1 "abc123".data rfl
  · refine (C6_session_marker_strip
      (fun _ => some (.elem "response" [.elem "SesInfo" [.text "abc123"],
        .elem "TokInfo" [.text "tok"]])) "b" "abc123" "tok" rfl).2 (fun r hr => ?_)
    have h1 : Modem.stripLead "SessionID=".data "abc123".data = some r :=
      (stripLead_eq_some_iff _ _ r).mpr hr
    have h0 : Modem.stripLead "SessionID=".data "abc123".data = none := by decide
    rw [h0] at h1
    simp at h1

/-- Claim C7: a session response that is a well-formed device error envelope
    yields the device fault with that code and message; only when neither
    the session shape nor the envelope parses is the protocol error with the
    raw body returned. -/
theorem C7_session_error_envelope (readXml : String → Option Modem.Xml) (body : String) :
    (∀ (code : Int) (msg : String),
      (readXml body).bind Modem.parseSessionInfo = none →
      (readXml body).bind Modem.parseModemErrorResponse = some ⟨code, msg⟩ →
      Modem.get_session_info readXml body = Except.error (.modemError code msg)) ∧
    ((readXml body).bind Modem.parseSessionInfo = none →
      (readXml body).bind Modem.parseModemErrorResponse = none →
      Modem.get_session_info readXml body =
        Except.error (.other ("Failed to get session info: " ++ body))) := by
  constructor
  · intro code msg h1 h2
    simp only [Modem.get_session_info, h1, h2]
  · intro h1 h2
    simp only [Modem.get_session_info, h1, h2]

/-- Witness for C7: the spec scenario code 125003, message Busy. -/
theorem C7_witness :
    Modem.get_session_info
      (fun _ => some (.elem "error" [.elem "code" [.text "125003"],
        .elem "message" [.text "Busy"]])) "b" =
      Except.error (.modemError 125003 "Busy") :=
  (C7_session_error_envelope _ "b").1 125003 "Busy" rfl rfl

/-- Claim C8 (amended: the length field is the i32 cast of the content's
    UTF-8 byte count — Rust String::len — not its character count): the send
    request carries index -1, a single-element phone list holding the
    recipient with every whitespace character removed, an empty
    service-center field, the content verbatim, the byte-count length, and
    reserved = date = -1. -/
theorem C8_send_request_shape (to_ message : String) :
    (Modem.sms_request_of to_ message).index = -1 ∧
    (Modem.sms_request_of to_ message).phones =
      ⟨[String.mk (to_.data.filter fun c => !(Modem.rustIsWhitespace c))]⟩ ∧
    ((Modem.sms_request_of to_ message).phones.phone.all
      fun ph => ph.data.all fun c => !(Modem.rustIsWhitespace c)) = true ∧
    (Modem.sms_request_of to_ message).sca = "" ∧
    (Modem.sms_request_of to_ message).content = message ∧
    (Modem.sms_request_of to_ message).length = Modem.asI32 message.utf8ByteSize ∧
    (Modem.sms_request_of to_ message).reserved = -1 ∧
    (Modem.sms_request_of to_ message).date = -1 := by
  refine ⟨rfl, rfl, ?_, rfl, rfl, rfl, rfl, rfl⟩
  simp only [Modem.sms_request_of, List.all_cons, List.all_nil, Bool.and_true]
  show ((to_.data.filter fun c => !(Modem.rustIsWhitespace c)).all
    fun c => !(Modem.rustIsWhitespace c)) = true
  rw [List.all_eq_true]
  intro c hc
  exact (List.mem_filter.mp hc).2

/-- Counterexample to C8 as stated: for content é the length field is the
    byte count 2, not the character count 1. -/
theorem C8_counterexample :
    (Modem.sms_request_of "x" "é").length ≠ (("é".length : Nat) : Int) := by
  decide

/-- Claim C9: a list response whose Messages element has no Message children
    parses as zero messages and succeeds; a body on which the success shape
    fails is surfaced as the device error envelope when it parses as one,
    else as the protocol error carrying the raw body. -/
theorem C9_empty_message_list (readXml : String → Option Modem.Xml)
    (body ct : String) (n : Int) (mcs : List Modem.Xml) :
    ((readXml body = some (.elem "response"
        [.elem "Count" [.text ct], .elem "Messages" mcs])) →
      Modem.intOfText ct = some n →
      mcs.filter (Modem.isElemNamed "Message") = [] →
      Modem.get_sms_list readXml body = Except.ok ⟨n, ⟨[]⟩⟩) ∧
    (∀ e : Modem.ModemErrorResponse,
      (readXml body).bind Modem.parseSmsListResponse = none →
      (readXml body).bind Modem.parseModemErrorResponse = some e →
      Modem.get_sms_list readXml body = Except.error (.modemError e.code e.message)) ∧
    ((readXml body).bind Modem.parseSmsListResponse = none →
      (readXml body).bind Modem.parseModemErrorResponse = none →
      Modem.get_sms_list readXml body =
        Except.error (.other ("Failed to get SMS list: " ++ body))) := by
  refine ⟨?_, ?_, ?_⟩
  · intro hx hct hemp
    have hparse : (readXml body).bind Modem.parseSmsListResponse = some ⟨n, ⟨[]⟩⟩ := by
      rw [hx]
      show Modem.parseSmsListResponse (.elem "response"
        [.elem "Count" [.text ct], .elem "Messages" mcs]) = some ⟨n, ⟨[]⟩⟩
      simp [Modem.parseSmsListResponse, Modem.findChild, Modem.childText,
        Modem.parseSmsMessages, hct, hemp]
      rfl
    simp only [Modem.get_sms_list, hparse]
  · intro e h1 h2
    simp only [Modem.get_sms_list, h1, h2]
  · intro h1 h2
    simp only [Modem.get_sms_list, h1, h2]

/-- Witness for C9: an empty Messages element and Count 0 succeed with zero
    messages. -/
theorem C9_witness :
    Modem.get_sms_list
      (fun _ => some (.elem "response" [.elem "Count" [.text "0"],
        .elem "Messages" []])) "b" = Except.ok ⟨0, ⟨[]⟩⟩ :=
  (C9_empty_message_list
    (fun _ => some (.elem "response" [.elem "Count" [.text "0"],
      .elem "Messages" []])) "b" "0" 0 []).1 rfl rfl rfl
